import Mathlib

/-!
Shallow embedding of the EmunahAcademy backend (src/backend/app/main.py and
db_models.py) for verification of its natural-language specification.

Modelling conventions:
* SQLAlchemy tables become Lean structures; the database session becomes an
  explicit `Store` record of lists, iterated in insertion order
  (`query(...).first()` is `List.find?`, `.count()` is `List.countP`,
  `.all()` with a filter is `List.filter`).  Auto-increment primary keys are
  per-table counters carried in the store.
* Python `datetime` values are abstract integer instants; operations that call
  `datetime.now()` take the current instant as an explicit `now` argument.
* Python floats (quiz and evaluation scores) are modelled as rationals `Rat`;
  every arithmetic operation performed by the code (sum, division by a list
  length, multiplication by 100) is exact in the ranges involved.
* `HTTPException(status_code, detail)` becomes the `ApiError` structure holding
  the numeric status and the detail string.  The specification taxonomy (§7)
  classifies errors semantically: uniqueness violations ("Email ya registrado",
  "Estudiante ya inscrito en este curso", "Vinculo ya existe") are its
  Conflict class even though the code raises them with HTTP status 400.
* A quiz lesson's `content` column holds a JSON-serialized question list; the
  `json.loads` call of `submit_quiz` is modelled by the `LessonContent.quiz`
  constructor carrying the parse result, with `LessonContent.raw` for content
  that is not a serialized question list (on which `json.loads` would not
  produce a question list; the claims under study condition on a successful
  parse).
* The in-memory `applications_db` dict of main.py is an association list from
  ids to application records (Python dicts have unique keys and preserve
  insertion order, as association lists do).
-/

inductive Role
  | superuser
  | director
  | teacher
  | student
  | parent
deriving DecidableEq, Repr

inductive LessonType
  | video
  | text
  | quiz
deriving DecidableEq, Repr

inductive ApplicationStatus
  | pending
  | approved
  | rejected
deriving DecidableEq, Repr

/-- Model of `HTTPException(status_code=..., detail=...)`. -/
structure ApiError where
  status : Nat
  detail : String
deriving DecidableEq, Repr

/-- Row of the `users` table (db_models.py, class User). -/
structure User where
  id : Int
  email : String
  name : String
  role : Role
  password : String
  grade_level : Option String := none
  created_at : Int := 0
  is_active : Bool := true
deriving DecidableEq, Repr

/-- Row of the `courses` table. -/
structure Course where
  id : Int
  title : String
  description : String
  thumbnail_url : Option String := none
  grade_level : Option String := none
  teacher_id : Int
  created_at : Int := 0
  is_published : Bool := false
deriving DecidableEq, Repr

/-- Quiz question record embedded in a quiz lesson's serialized content
(models.py, class QuizQuestion). -/
structure QuizQuestion where
  question : String
  options : List String
  correct_answer : Int
deriving DecidableEq, Repr

/-- Content column of a lesson: either raw text (video URL / markup / anything
`json.loads` would not turn into a question list) or a parsed question list. -/
inductive LessonContent
  | raw (s : String)
  | quiz (questions : List QuizQuestion)
deriving DecidableEq, Repr

/-- Row of the `lessons` table. -/
structure Lesson where
  id : Int
  course_id : Int
  title : String
  lesson_type : LessonType
  content : LessonContent
  order : Int
  created_at : Int := 0
deriving DecidableEq, Repr

/-- Row of the `lesson_completions` table. -/
structure LessonCompletion where
  id : Int
  student_id : Int
  lesson_id : Int
  completed_at : Int := 0
deriving DecidableEq, Repr

/-- Row of the `quiz_results` table. -/
structure QuizResult where
  id : Int
  lesson_id : Int
  student_id : Int
  score : Rat
  total_questions : Nat
  correct_answers : Nat
  submitted_at : Int := 0
deriving DecidableEq, Repr

/-- Row of the `enrollments` table. -/
structure Enrollment where
  id : Int
  student_id : Int
  course_id : Int
  enrolled_at : Int := 0
deriving DecidableEq, Repr

/-- Row of the `evaluations` table. -/
structure Evaluation where
  id : Int
  title : String
  description : String
  course_id : Int
  due_date : Int
  max_score : Rat := 100
  created_at : Int := 0
deriving DecidableEq, Repr

/-- Row of the `evaluation_submissions` table. -/
structure EvaluationSubmission where
  id : Int
  evaluation_id : Int
  student_id : Int
  content : String
  score : Option Rat := none
  feedback : Option String := none
  submitted_at : Int := 0
  graded_at : Option Int := none
deriving DecidableEq, Repr

/-- Row of the `parent_student_links` table. -/
structure ParentStudentLink where
  id : Int
  parent_id : Int
  student_id : Int
deriving DecidableEq, Repr

/-- Row of the `messages` table. -/
structure Message where
  id : Int
  sender_id : Int
  receiver_id : Int
  content : String
  is_read : Bool := false
  created_at : Int := 0
deriving DecidableEq, Repr

/-- In-memory student application record (main.py, create_application). -/
structure StudentApplication where
  id : Int
  student_name : String
  student_age : Int
  grade_level : String
  parent_name : String
  parent_email : String
  parent_phone : String
  address : String
  message : Option String := none
  status : ApplicationStatus := ApplicationStatus.pending
  created_at : Int := 0
  reviewed_at : Option Int := none
  reviewed_by : Option Int := none
deriving DecidableEq, Repr

/-- Database state: one list per table, iterated in insertion order, plus the
auto-increment counter of each table the embedded operations insert into. -/
structure Store where
  users : List User := []
  courses : List Course := []
  lessons : List Lesson := []
  lesson_completions : List LessonCompletion := []
  quiz_results : List QuizResult := []
  enrollments : List Enrollment := []
  evaluations : List Evaluation := []
  evaluation_submissions : List EvaluationSubmission := []
  parent_links : List ParentStudentLink := []
  messages : List Message := []
  next_user_id : Int := 1
  next_completion_id : Int := 1
  next_quiz_result_id : Int := 1
  next_enrollment_id : Int := 1
  next_link_id : Int := 1
deriving DecidableEq, Repr

/-- Response body of `/api/auth/me` and the `user` field of `Token`
(models.py, class User): the stored user minus the password column. -/
structure UserSchema where
  id : Int
  email : String
  name : String
  role : Role
  grade_level : Option String
  created_at : Int
  is_active : Bool
deriving DecidableEq, Repr

/-- Field-by-field copy a stored user into its response shape. -/
def userView (u : User) : UserSchema :=
  { id := u.id, email := u.email, name := u.name, role := u.role,
    grade_level := u.grade_level, created_at := u.created_at,
    is_active := u.is_active }

/-- Response body of the auth endpoints (models.py, class Token).  The access
token is kept as the character list of the Python string. -/
structure Token where
  access_token : List Char
  token_type : String
  user : UserSchema
deriving DecidableEq, Repr

/-- Request body of `/api/auth/register` (models.py, UserCreate). -/
structure UserCreate where
  email : String
  name : String
  role : Role
  grade_level : Option String := none
  password : String
deriving DecidableEq, Repr

/-- Request body of `/api/auth/login` (models.py, UserLogin). -/
structure UserLogin where
  email : String
  password : String
deriving DecidableEq, Repr

/-- Request body of `/api/quizzes/submit` (models.py, QuizSubmission). -/
structure QuizSubmission where
  lesson_id : Int
  answers : List Int
deriving DecidableEq, Repr

/-- Request body of `/api/enrollments` (models.py, EnrollmentCreate). -/
structure EnrollmentCreate where
  student_id : Int
  course_id : Int
deriving DecidableEq, Repr

/-- Request body of `/api/parents/link` (models.py, ParentStudentLink). -/
structure ParentStudentLinkCreate where
  parent_id : Int
  student_id : Int
deriving DecidableEq, Repr

/-- Per-course progress summary (models.py, StudentProgress). -/
structure StudentProgress where
  student_id : Int
  student_name : String
  course_id : Int
  course_title : String
  completed_lessons : Nat
  total_lessons : Nat
  average_quiz_score : Option Rat
  evaluations_completed : Nat
  total_evaluations : Nat
deriving DecidableEq, Repr

/-- Per-counterparty conversation summary (models.py, Conversation). -/
structure Conversation where
  user_id : Int
  user_name : String
  user_role : Role
  last_message : String
  last_message_time : Int
  unread_count : Nat
deriving DecidableEq, Repr

/-! ### Decimal rendering and parsing of integers

`register` and `login` build the session token with the f-string
`f"token_{user.id}"`; `get_current_user` recovers the id with
`int(token.replace("token_", ""))`.  The decimal rendering of Python's
`str`/f-string interpolation and the decimal parsing of `int()` are modelled
below on character lists.  `pyInt` models `int()` on strings consisting of an
optional minus sign followed by decimal digits, the only shapes reachable from
the token format; Python's additional tolerance (surrounding whitespace, a
plus sign, underscore separators) is not modelled. -/

/-- Character of a decimal digit value below ten. -/
def digitChar (d : Nat) : Char :=
  match d with
  | 0 => '0'
  | 1 => '1'
  | 2 => '2'
  | 3 => '3'
  | 4 => '4'
  | 5 => '5'
  | 6 => '6'
  | 7 => '7'
  | 8 => '8'
  | _ => '9'

/-- Numeric value of a decimal digit character, none for any other character. -/
def digitVal (c : Char) : Option Nat :=
  if c = '0' then some 0
  else if c = '1' then some 1
  else if c = '2' then some 2
  else if c = '3' then some 3
  else if c = '4' then some 4
  else if c = '5' then some 5
  else if c = '6' then some 6
  else if c = '7' then some 7
  else if c = '8' then some 8
  else if c = '9' then some 9
  else none

/-- Decimal digit characters of a natural number, most significant first. -/
def natDigits (n : Nat) : List Char :=
  if h : n < 10 then [digitChar n]
  else natDigits (n / 10) ++ [digitChar (n % 10)]
decreasing_by
  exact Nat.div_lt_self (by omega) (by omega)

/-- Decimal rendering of a Python integer, as `str`/f-string interpolation
produces it. -/
def pyStrInt (i : Int) : List Char :=
  if i < 0 then '-' :: natDigits i.natAbs else natDigits i.natAbs

/-- Parse a run of decimal digits left to right, failing on any non-digit. -/
def parseDigits (acc : Nat) : List Char → Option Nat
  | [] => some acc
  | c :: rest =>
    match digitVal c with
    | some d => parseDigits (acc * 10 + d) rest
    | none => none

/-- Model of Python `int(s)` on an optional minus sign followed by decimal
digits; `none` models the `ValueError` that `get_current_user` catches. -/
def pyInt (s : List Char) : Option Int :=
  match s with
  | [] => none
  | c :: rest =>
    if c = '-' then
      if rest.isEmpty then none
      else (parseDigits 0 rest).map (fun n => -(n : Int))
    else (parseDigits 0 (c :: rest)).map (fun n => (n : Int))

/-- Model of Python `s.replace(pat, "")`: delete every non-overlapping
occurrence of `pat`, scanning left to right. -/
def replaceAll (pat : List Char) (s : List Char) : List Char :=
  match s with
  | [] => []
  | c :: rest =>
    if h : pat ≠ [] ∧ pat.isPrefixOf (c :: rest) then
      replaceAll pat ((c :: rest).drop pat.length)
    else
      c :: replaceAll pat rest
termination_by s.length
decreasing_by
  · simp only [List.length_drop]
    cases pat with
    | nil => exact absurd rfl h.1
    | cons p ps => simp; omega
  · simp

/-- Characters of the literal `"token_"` that the auth endpoints prepend and
`get_current_user` strips. -/
def tokenPat : List Char :=
  't' :: 'o' :: 'k' :: 'e' :: 'n' :: '_' :: []

/-- Session token issued for a user id: the characters of `f"token_{id}"`. -/
def mkToken (id : Int) : List Char :=
  tokenPat ++ pyStrInt id

/-! ### Embedded endpoint operations (main.py) -/

/-- POST `/api/auth/register` (main.py lines 70-99). -/
def register (db : Store) (user : UserCreate) (now : Int) :
    Except ApiError (Store × Token) :=
  if (db.users.find? (fun u => u.email == user.email)).isSome then
    .error ⟨400, "Email ya registrado"⟩
  else
    let db_user : User :=
      { id := db.next_user_id, email := user.email, name := user.name,
        role := user.role, password := user.password, grade_level := none,
        created_at := now, is_active := true }
    let user_data : UserSchema :=
      { id := db_user.id, email := db_user.email, name := db_user.name,
        role := db_user.role, grade_level := none,
        created_at := db_user.created_at, is_active := db_user.is_active }
    .ok ({ db with users := db.users ++ [db_user],
                   next_user_id := db.next_user_id + 1 },
         { access_token := mkToken db_user.id, token_type := "bearer",
           user := user_data })

/-- POST `/api/auth/login` (main.py lines 101-124). -/
def login (db : Store) (credentials : UserLogin) : Except ApiError Token :=
  match db.users.find?
      (fun u => u.email == credentials.email && u.password == credentials.password) with
  | none => .error ⟨401, "Credenciales invalidas"⟩
  | some user =>
    .ok { access_token := mkToken user.id, token_type := "bearer",
          user := userView user }

/-- GET `/api/auth/me` (main.py lines 126-143): strip `token_` occurrences,
parse the remainder as an integer, look the user up; any failure yields 401. -/
def get_current_user (db : Store) (token : List Char) :
    Except ApiError UserSchema :=
  match pyInt (replaceAll tokenPat token) with
  | none => .error ⟨401, "Token invalido"⟩
  | some user_id =>
    match db.users.find? (fun u => u.id == user_id) with
    | some user => .ok (userView user)
    | none => .error ⟨401, "Token invalido"⟩

/-- POST `/api/lessons/{lesson_id}/complete` (main.py lines 422-442). -/
def complete_lesson (db : Store) (lesson_id : Int) (student_id : Int)
    (now : Int) : Except ApiError (Store × String) :=
  match db.lessons.find? (fun l => l.id == lesson_id) with
  | none => .error ⟨404, "Leccion no encontrada"⟩
  | some _ =>
    match db.lesson_completions.find?
        (fun c => c.lesson_id == lesson_id && c.student_id == student_id) with
    | some _ => .ok (db, "Leccion ya completada")
    | none =>
      let completion : LessonCompletion :=
        { id := db.next_completion_id, student_id := student_id,
          lesson_id := lesson_id, completed_at := now }
      .ok ({ db with
              lesson_completions := db.lesson_completions ++ [completion],
              next_completion_id := db.next_completion_id + 1 },
           "Leccion completada")

/-- Store reached after a completion call: the committed store on success, the
unchanged store when the request aborts with an error. -/
def applyCompleteLesson (db : Store) (lesson_id student_id now : Int) : Store :=
  match complete_lesson db lesson_id student_id now with
  | .ok (db2, _) => db2
  | .error _ => db

/-- Store reached after a whole sequence of completion calls, each given as
(lesson id, student id, instant). -/
def runCompletions (db : Store) (calls : List (Int × Int × Int)) : Store :=
  calls.foldl (fun st c => applyCompleteLesson st c.1 c.2.1 c.2.2) db

/-- Grading loop of `submit_quiz` (main.py lines 457-460) from a start index:
one point per answer whose index is within the question list and equal to the
question's correct index. -/
def countCorrectFrom (questions : List QuizQuestion) (i : Nat) :
    List Int → Nat
  | [] => 0
  | answer :: rest =>
    (match questions[i]? with
     | some q => if q.correct_answer == answer then 1 else 0
     | none => 0) + countCorrectFrom questions (i + 1) rest

/-- Grading loop of `submit_quiz`, `for i, answer in enumerate(answers)`. -/
def countCorrect (questions : List QuizQuestion) (answers : List Int) : Nat :=
  countCorrectFrom questions 0 answers

/-- Quiz result row built by `submit_quiz` (main.py lines 457-470): the
correct count from the grading loop and the score
`(correct / len(questions)) * 100 if questions else 0`. -/
def gradedResult (db : Store) (submission : QuizSubmission)
    (student_id now : Int) (questions : List QuizQuestion) : QuizResult :=
  { id := db.next_quiz_result_id, lesson_id := submission.lesson_id,
    student_id := student_id,
    score := if questions.isEmpty then 0
      else ((countCorrect questions submission.answers : Rat) /
              (questions.length : Rat)) * 100,
    total_questions := questions.length,
    correct_answers := countCorrect questions submission.answers,
    submitted_at := now }

/-- Store committed by `submit_quiz` before its completion side effect:
the graded result row appended to `quiz_results`. -/
def gradedStore (db : Store) (submission : QuizSubmission)
    (student_id now : Int) (questions : List QuizQuestion) : Store :=
  { db with
      quiz_results := db.quiz_results ++
        [gradedResult db submission student_id now questions],
      next_quiz_result_id := db.next_quiz_result_id + 1 }

/-- POST `/api/quizzes/submit` (main.py lines 446-485).  On a lesson whose
content is not a serialized question list the Python `json.loads` raises and
the request fails with an unhandled-exception 500. -/
def submit_quiz (db : Store) (submission : QuizSubmission) (student_id : Int)
    (now : Int) : Except ApiError (Store × QuizResult) :=
  match db.lessons.find? (fun l => l.id == submission.lesson_id) with
  | none => .error ⟨404, "Quiz no encontrado"⟩
  | some lesson =>
    if lesson.lesson_type ≠ LessonType.quiz then
      .error ⟨400, "Esta leccion no es un quiz"⟩
    else
      match lesson.content with
      | LessonContent.raw _ => .error ⟨500, "Internal Server Error"⟩
      | LessonContent.quiz questions =>
        match complete_lesson (gradedStore db submission student_id now questions)
            submission.lesson_id student_id now with
        | .ok (db2, _) =>
          .ok (db2, gradedResult db submission student_id now questions)
        | .error e => .error e

/-- POST `/api/enrollments` (main.py lines 729-759). -/
def create_enrollment (db : Store) (enrollment : EnrollmentCreate)
    (now : Int) : Except ApiError (Store × Enrollment) :=
  match db.users.find? (fun u => u.id == enrollment.student_id) with
  | none => .error ⟨404, "Estudiante no encontrado"⟩
  | some _ =>
    match db.courses.find? (fun c => c.id == enrollment.course_id) with
    | none => .error ⟨404, "Curso no encontrado"⟩
    | some _ =>
      if (db.enrollments.find?
          (fun e => e.student_id == enrollment.student_id &&
                    e.course_id == enrollment.course_id)).isSome then
        .error ⟨400, "Estudiante ya inscrito en este curso"⟩
      else
        let db_enrollment : Enrollment :=
          { id := db.next_enrollment_id, student_id := enrollment.student_id,
            course_id := enrollment.course_id, enrolled_at := now }
        .ok ({ db with enrollments := db.enrollments ++ [db_enrollment],
                       next_enrollment_id := db.next_enrollment_id + 1 },
             db_enrollment)

/-- Store reached after an enrollment-creation call, unchanged on error. -/
def applyCreateEnrollment (db : Store) (enrollment : EnrollmentCreate)
    (now : Int) : Store :=
  match create_enrollment db enrollment now with
  | .ok (db2, _) => db2
  | .error _ => db

/-- POST `/api/parents/link` (main.py lines 826-854). -/
def link_parent_to_student (db : Store) (link : ParentStudentLinkCreate) :
    Except ApiError (Store × String) :=
  match db.users.find? (fun u => u.id == link.parent_id) with
  | none => .error ⟨404, "Padre no encontrado"⟩
  | some parent =>
    match db.users.find? (fun u => u.id == link.student_id) with
    | none => .error ⟨404, "Estudiante no encontrado"⟩
    | some student =>
      if parent.role ≠ Role.parent then
        .error ⟨400, "El usuario no es un padre"⟩
      else if student.role ≠ Role.student then
        .error ⟨400, "El usuario no es un estudiante"⟩
      else if (db.parent_links.find?
          (fun l => l.parent_id == link.parent_id &&
                    l.student_id == link.student_id)).isSome then
        .error ⟨400, "Vinculo ya existe"⟩
      else
        let db_link : ParentStudentLink :=
          { id := db.next_link_id, parent_id := link.parent_id,
            student_id := link.student_id }
        .ok ({ db with parent_links := db.parent_links ++ [db_link],
                       next_link_id := db.next_link_id + 1 },
             "Vinculo creado")

/-- Review fields written by `update_application_status` (main.py lines
1217-1219): the requested status, the review instant, the reviewer id. -/
def reviewedApp (a : StudentApplication) (status : ApplicationStatus)
    (reviewed_by now : Int) : StudentApplication :=
  { a with status := status, reviewed_at := some now,
           reviewed_by := some reviewed_by }

/-- PUT `/api/applications/{application_id}/status` (main.py lines 1200-1221).
`apps` is the in-memory `applications_db` dict as an association list. -/
def update_application_status (apps : List (Int × StudentApplication))
    (db : Store) (application_id : Int) (status : ApplicationStatus)
    (reviewed_by : Int) (now : Int) :
    Except ApiError (List (Int × StudentApplication) × StudentApplication) :=
  match apps.find? (fun p => p.1 == application_id) with
  | none => .error ⟨404, "Application not found"⟩
  | some entry =>
    match db.users.find? (fun u => u.id == reviewed_by) with
    | none => .error ⟨404, "Reviewer not found"⟩
    | some reviewer =>
      if reviewer.role ≠ Role.superuser ∧ reviewer.role ≠ Role.director then
        .error ⟨403, "Only superuser or director can review applications"⟩
      else
        let updated := reviewedApp entry.2 status reviewed_by now
        .ok (apps.map
              (fun p => if p.1 == application_id then (p.1, updated) else p),
             updated)

/-- Application dict reached after a review call, unchanged on error. -/
def applyUpdateApplicationStatus (apps : List (Int × StudentApplication))
    (db : Store) (application_id : Int) (status : ApplicationStatus)
    (reviewed_by : Int) (now : Int) : List (Int × StudentApplication) :=
  match update_application_status apps db application_id status reviewed_by now with
  | .ok (apps2, _) => apps2
  | .error _ => apps

/-- Lessons of a course, `db.query(Lesson).filter(course_id == course.id)`
(main.py line 787). -/
def courseLessons (db : Store) (cid : Int) : List Lesson :=
  db.lessons.filter (fun l => l.course_id == cid)

/-- The `lesson_ids` local of the progress loop (main.py line 790). -/
def courseLessonIds (db : Store) (cid : Int) : List Int :=
  (courseLessons db cid).map (fun l => l.id)

/-- The `completed` local of the progress loop (main.py lines 791-794):
completion count over the course's lesson ids, 0 when the course has no
lessons. -/
def progressCompleted (db : Store) (sid cid : Int) : Nat :=
  if (courseLessonIds db cid).isEmpty then 0
  else db.lesson_completions.countP
    (fun c => c.student_id == sid &&
              (courseLessonIds db cid).contains c.lesson_id)

/-- The `quiz_lesson_ids` local of the progress loop (main.py line 796). -/
def courseQuizLessonIds (db : Store) (cid : Int) : List Int :=
  ((courseLessons db cid).filter
    (fun l => l.lesson_type == LessonType.quiz)).map (fun l => l.id)

/-- The `quiz_results` local of the progress loop (main.py lines 797-800). -/
def progressQuizResults (db : Store) (sid cid : Int) : List QuizResult :=
  if (courseQuizLessonIds db cid).isEmpty then []
  else db.quiz_results.filter
    (fun q => q.student_id == sid &&
              (courseQuizLessonIds db cid).contains q.lesson_id)

/-- The `avg_quiz` local of the progress loop (main.py line 801): None when
there are no quiz results, the arithmetic mean of their scores otherwise. -/
def progressAvgQuiz (db : Store) (sid cid : Int) : Option Rat :=
  if (progressQuizResults db sid cid).isEmpty then none
  else some (((progressQuizResults db sid cid).map (fun r => r.score)).sum /
               ((progressQuizResults db sid cid).length : Rat))

/-- GET `/api/progress/{student_id}` (main.py lines 772-822). -/
def get_student_progress (db : Store) (student_id : Int) :
    Except ApiError (List StudentProgress) :=
  match db.users.find? (fun u => u.id == student_id) with
  | none => .error ⟨404, "Estudiante no encontrado"⟩
  | some student =>
    let enrollments := db.enrollments.filter (fun e => e.student_id == student_id)
    .ok (enrollments.filterMap (fun enrollment =>
      match db.courses.find? (fun c => c.id == enrollment.course_id) with
      | none => none
      | some course =>
        let evaluations := db.evaluations.filter (fun e => e.course_id == course.id)
        let eval_ids := evaluations.map (fun e => e.id)
        let completed_evals :=
          if eval_ids.isEmpty then 0
          else db.evaluation_submissions.countP
            (fun s => s.student_id == student_id &&
                      eval_ids.contains s.evaluation_id)
        some { student_id := student_id, student_name := student.name,
               course_id := course.id, course_title := course.title,
               completed_lessons := progressCompleted db student_id course.id,
               total_lessons := (courseLessons db course.id).length,
               average_quiz_score := progressAvgQuiz db student_id course.id,
               evaluations_completed := completed_evals,
               total_evaluations := evaluations.length }))

/-- Counterparty of a message from the queried user's point of view
(main.py line 926). -/
def otherId (user_id : Int) (msg : Message) : Int :=
  if msg.sender_id == user_id then msg.receiver_id else msg.sender_id

/-- Conversation-dict lookup: first entry under the given key. -/
def convLookup (state : List (Int × Conversation)) (k : Int) :
    Option Conversation :=
  (state.find? (fun p => p.1 == k)).map (fun p => p.2)

/-- Conversation-dict point update of the entry under the given key. -/
def convUpdate (state : List (Int × Conversation)) (k : Int)
    (f : Conversation → Conversation) : List (Int × Conversation) :=
  state.map (fun p => if p.1 == k then (p.1, f p.2) else p)

/-- Fresh conversation entry created for a counterparty (main.py lines
931-938): last message fields from the current message, unread count 0. -/
def convInit (msg : Message) (other_id : Int) (other_user : User) :
    Conversation :=
  { user_id := other_id, user_name := other_user.name,
    user_role := other_user.role, last_message := msg.content,
    last_message_time := msg.created_at, unread_count := 0 }

/-- Last-message refresh applied when a later message is seen (main.py lines
940-942). -/
def convRefresh (msg : Message) (c : Conversation) : Conversation :=
  { c with last_message := msg.content, last_message_time := msg.created_at }

/-- Unread-count increment (main.py lines 944-945). -/
def convIncUnread (c : Conversation) : Conversation :=
  { c with unread_count := c.unread_count + 1 }

/-- Body of the `for msg in messages` loop of `get_conversations`
(main.py lines 925-945): create the counterparty's entry when absent and its
user exists, refresh the last message if this one is later, and count it as
unread when it was sent to the queried user and is not read. -/
def convStep (users : List User) (user_id : Int)
    (state : List (Int × Conversation)) (msg : Message) :
    List (Int × Conversation) :=
  let other_id := otherId user_id msg
  let state1 :=
    match convLookup state other_id with
    | some _ => state
    | none =>
      match users.find? (fun u => u.id == other_id) with
      | some other_user => state ++ [(other_id, convInit msg other_id other_user)]
      | none => state
  let state2 :=
    match convLookup state1 other_id with
    | some conv =>
      if conv.last_message_time < msg.created_at then
        convUpdate state1 other_id (convRefresh msg)
      else state1
    | none => state1
  match convLookup state2 other_id with
  | some _ =>
    if msg.receiver_id == user_id && !msg.is_read then
      convUpdate state2 other_id convIncUnread
    else state2
  | none => state2

/-- Stable insertion into a list sorted descending by last-message time: the
inserted element goes before the first element with a strictly smaller or
equal time, so elements with equal times keep their original order. -/
def insertByTimeDesc (c : Conversation) : List Conversation → List Conversation
  | [] => [c]
  | d :: rest =>
    if c.last_message_time < d.last_message_time then
      d :: insertByTimeDesc c rest
    else c :: d :: rest

/-- Model of `sorted(..., key=lambda x: x.last_message_time, reverse=True)`
(main.py lines 947-951): Python's stable descending sort by key. -/
def sortByTimeDesc (l : List Conversation) : List Conversation :=
  l.foldr insertByTimeDesc []

/-- GET `/api/messages/conversations` (main.py lines 914-951). -/
def get_conversations (db : Store) (user_id : Int) :
    Except ApiError (List Conversation) :=
  match db.users.find? (fun u => u.id == user_id) with
  | none => .error ⟨404, "Usuario no encontrado"⟩
  | some _ =>
    let messages := db.messages.filter
      (fun m => m.sender_id == user_id || m.receiver_id == user_id)
    let convs := (messages.foldl (convStep db.users user_id) []).map
      (fun p => p.2)
    .ok (sortByTimeDesc convs)

/-! ### Specification-side definitions

These restate, in the claims' own words, the quantities the theorems compare
with the embedded code. -/

/-- Position `i` scores a point: `i` is within the question list bounds and
the submitted answer at `i` equals question `i`'s correct index. -/
def specHit (questions : List QuizQuestion) (answers : List Int) (i : Nat) :
    Bool :=
  match questions[i]?, answers[i]? with
  | some q, some a => q.correct_answer == a
  | _, _ => false

/-- Number of positions among the submitted answers that score a point. -/
def specCorrectCount (questions : List QuizQuestion) (answers : List Int) :
    Nat :=
  (List.range answers.length).countP (specHit questions answers)

/-- The store holds at most one completion record per (student, lesson) pair. -/
def AtMostOneCompletion (db : Store) : Prop :=
  ∀ sid lid : Int,
    db.lesson_completions.countP
      (fun c => c.student_id == sid && c.lesson_id == lid) ≤ 1

/-- Lesson completions are unique per (student, lesson) pair. -/
def UniqueCompletionPairs (db : Store) : Prop :=
  (db.lesson_completions.map (fun c => (c.student_id, c.lesson_id))).Nodup

/-- Number of stored enrollments for one (student, course) pair. -/
def enrollmentPairCount (db : Store) (sid cid : Int) : Nat :=
  db.enrollments.countP (fun e => e.student_id == sid && e.course_id == cid)

/-- The student's quiz results restricted to the quiz-kind lessons of the
given course. -/
def courseQuizResults (db : Store) (sid cid : Int) : List QuizResult :=
  db.quiz_results.filter (fun q => q.student_id == sid &&
    ((db.lessons.filter (fun l => l.course_id == cid &&
        l.lesson_type == LessonType.quiz)).map (fun l => l.id)).contains
      q.lesson_id)

/-- Number of stored messages sent by counterparty `cp` to user `uid` whose
read flag is false. -/
def unreadFromCount (msgs : List Message) (uid cp : Int) : Nat :=
  msgs.countP (fun m => m.sender_id == cp && m.receiver_id == uid && !m.is_read)

/-- Message `m` is counted as unread under counterparty key `k` by the
conversation loop. -/
def unreadHit (uid k : Int) (m : Message) : Bool :=
  otherId uid m == k && (m.receiver_id == uid && !m.is_read)

/-- Loop invariant of the conversation fold: every dict entry's unread count
equals the count over the processed messages of its key's unread hits, and a
counterparty with an existing user but no entry has no processed message. -/
def ConvInv (users : List User) (uid : Int) (processed : List Message)
    (state : List (Int × Conversation)) : Prop :=
  (∀ p ∈ state, p.1 = p.2.user_id ∧
     p.2.unread_count = processed.countP (unreadHit uid p.1)) ∧
  (∀ k : Int, (users.find? (fun u => u.id == k)).isSome →
     (∀ p ∈ state, p.1 ≠ k) → ∀ m ∈ processed, otherId uid m ≠ k)

/-! ### Concrete store used by the witness theorems -/

/-- Student user of the witness store. -/
def demoStudent : User :=
  { id := 1, email := "stu@test.com", name := "Stu", role := Role.student,
    password := "pw" }

/-- Teacher user of the witness store. -/
def demoTeacher : User :=
  { id := 2, email := "tea@test.com", name := "Tea", role := Role.teacher,
    password := "pw" }

/-- Parent user of the witness store. -/
def demoParent : User :=
  { id := 3, email := "par@test.com", name := "Par", role := Role.parent,
    password := "pw" }

/-- Director user of the witness store. -/
def demoDirector : User :=
  { id := 4, email := "dir@test.com", name := "Dir", role := Role.director,
    password := "pw" }

/-- Witness store: four users, one course with a video and a quiz lesson, one
enrollment, one completion, one quiz result, one unread message. -/
def demoStore : Store :=
  { users := [demoStudent, demoTeacher, demoParent, demoDirector],
    courses := [{ id := 1, title := "Course", description := "d",
                  teacher_id := 2 }],
    lessons :=
      [{ id := 1, course_id := 1, title := "Intro",
         lesson_type := LessonType.video,
         content := LessonContent.raw "video url", order := 1 },
       { id := 2, course_id := 1, title := "Check",
         lesson_type := LessonType.quiz,
         content := LessonContent.quiz
           [{ question := "q1", options := ["a", "b"], correct_answer := 1 },
            { question := "q2", options := ["a", "b"], correct_answer := 1 }],
         order := 2 }],
    lesson_completions := [{ id := 1, student_id := 1, lesson_id := 1 }],
    quiz_results := [{ id := 1, lesson_id := 2, student_id := 1, score := 50,
                       total_questions := 2, correct_answers := 1 }],
    enrollments := [{ id := 1, student_id := 1, course_id := 1 }],
    messages := [{ id := 1, sender_id := 2, receiver_id := 1,
                   content := "hola", is_read := false, created_at := 10 }],
    next_user_id := 10, next_completion_id := 10, next_quiz_result_id := 10,
    next_enrollment_id := 10, next_link_id := 10 }

/-- Application record of the witness application dict. -/
def demoApplication : StudentApplication :=
  { id := 1, student_name := "Kid", student_age := 8, grade_level := "2",
    parent_name := "Par", parent_email := "par@test.com",
    parent_phone := "123", address := "Street 1" }

/-- Witness application dict. -/
def demoApps : List (Int × StudentApplication) := [(1, demoApplication)]

/-- Outcome of the witness quiz submission: two questions with correct
indices [1, 1], submitted answers [1, 0]. -/
def demoQuizOutcome : Except ApiError (Store × QuizResult) :=
  submit_quiz demoStore { lesson_id := 2, answers := [1, 0] } 1 5

/-- Store committed by the witness quiz submission. -/
def demoQuizStore2 : Store :=
  match demoQuizOutcome with
  | .ok (d, _) => d
  | .error _ => demoStore

/-- Quiz result returned by the witness quiz submission. -/
def demoQuizResult : QuizResult :=
  match demoQuizOutcome with
  | .ok (_, r) => r
  | .error _ =>
    { id := 0, lesson_id := 0, student_id := 0, score := 0,
      total_questions := 0, correct_answers := 0 }

/-- Progress summary returned for student 1 of the witness store. -/
def demoProgress : List StudentProgress :=
  match get_student_progress demoStore 1 with
  | .ok l => l
  | .error _ => []

/-- Conversation summary returned for user 1 of the witness store. -/
def demoConversations : List Conversation :=
  match get_conversations demoStore 1 with
  | .ok l => l
  | .error _ => []

/-- The per-course summary record of the witness progress output, written
with the loop's own field expressions so it coincides definitionally with
the aggregation's output for student 1 and course 1. -/
def demoProgressHead : StudentProgress :=
  { student_id := 1, student_name := "Stu", course_id := 1,
    course_title := "Course",
    completed_lessons := progressCompleted demoStore 1 1,
    total_lessons := (courseLessons demoStore 1).length,
    average_quiz_score := progressAvgQuiz demoStore 1 1,
    evaluations_completed := 0, total_evaluations := 0 }

/-- First conversation record of the witness conversation output. -/
def demoConversationHead : Conversation :=
  match demoConversations with
  | c :: _ => c
  | [] =>
    { user_id := 0, user_name := "", user_role := Role.student,
      last_message := "", last_message_time := 0, unread_count := 0 }

/-! ### Theorems -/

theorem applyCompleteLesson_atMostOne (db : Store) (l s t : Int)
    (h : AtMostOneCompletion db) :
    AtMostOneCompletion (applyCompleteLesson db l s t) := by
  rcases hl : db.lessons.find? (fun x => x.id == l) with _ | lesson
  · simpa only [applyCompleteLesson, complete_lesson, hl] using h
  rcases hc : db.lesson_completions.find?
      (fun c => c.lesson_id == l && c.student_id == s) with _ | c
  · intro sid lid
    have hzero := List.find?_eq_none.mp hc
    simp only [applyCompleteLesson, complete_lesson, hl, hc,
      AtMostOneCompletion, List.countP_append]
    by_cases hm : s = sid ∧ l = lid
    · have h0 : db.lesson_completions.countP
          (fun x => x.student_id == sid && x.lesson_id == lid) = 0 := by
        refine List.countP_eq_zero.mpr (fun x hx => ?_)
        have := hzero x hx
        simp only [Bool.and_eq_true, beq_iff_eq] at this ⊢
        rw [← hm.1, ← hm.2]
        tauto
      rw [h0]
      simp [hm.1, hm.2, List.countP_cons]
    · have h1 : (List.countP
          (fun x => x.student_id == sid && x.lesson_id == lid)
          [({ id := db.next_completion_id, student_id := s, lesson_id := l,
              completed_at := t } : LessonCompletion)]) = 0 := by
        simp only [List.countP_cons, List.countP_nil, Bool.and_eq_true,
          beq_iff_eq]
        split
        · exact absurd (by tauto) hm
        · rfl
      rw [h1]
      simpa using h sid lid
  · simpa only [applyCompleteLesson, complete_lesson, hl, hc] using h

/-- C2: lesson completion is idempotent.  With the referenced lesson present,
a second completion call for an already-completed (student, lesson) pair
reports success while leaving the store unchanged, and any sequence of
completion calls preserves the invariant that the store holds at most one
completion record per (student, lesson) pair. -/
theorem complete_lesson_idempotent (db : Store) (lesson_id student_id now : Int)
    (hlesson : (db.lessons.find? (fun l => l.id == lesson_id)).isSome) :
    ((db.lesson_completions.find?
        (fun c => c.lesson_id == lesson_id && c.student_id == student_id)).isSome →
      complete_lesson db lesson_id student_id now =
        .ok (db, "Leccion ya completada")) ∧
    (AtMostOneCompletion db → ∀ calls : List (Int × Int × Int),
      AtMostOneCompletion (runCompletions db calls)) := by
  constructor
  · intro hdup
    rcases Option.isSome_iff_exists.mp hlesson with ⟨lesson, hl⟩
    rcases Option.isSome_iff_exists.mp hdup with ⟨c, hc⟩
    simp [complete_lesson, hl, hc]
  · have main : ∀ (calls : List (Int × Int × Int)) (st : Store),
        AtMostOneCompletion st → AtMostOneCompletion (runCompletions st calls) := by
      intro calls
      induction calls with
      | nil => exact fun st h => h
      | cons c rest ih =>
        exact fun st h => ih _ (applyCompleteLesson_atMostOne st c.1 c.2.1 c.2.2 h)
    exact fun h calls => main calls db h

/-- Witness for the idempotence theorem: completing lesson 1 again for
student 1 in the concrete store succeeds and changes nothing. -/
theorem complete_lesson_idempotent_witness :
    complete_lesson demoStore 1 1 99 = .ok (demoStore, "Leccion ya completada") :=
  (complete_lesson_idempotent demoStore 1 1 99 (by decide)).1 (by decide)

/-- C3: with the referenced student and course present and an enrollment for
the same (student, course) pair already stored, a second enrollment attempt
fails with the duplicate-enrollment error (HTTP 400 in the source, the
Conflict class of the specification's error taxonomy), the store is
unchanged, and the pair's enrollment count stays 1. -/
theorem create_enrollment_duplicate_conflict (db : Store)
    (req : EnrollmentCreate) (now : Int)
    (hstudent : (db.users.find? (fun u => u.id == req.student_id)).isSome)
    (hcourse : (db.courses.find? (fun c => c.id == req.course_id)).isSome)
    (hdup : (db.enrollments.find?
        (fun e => e.student_id == req.student_id &&
          e.course_id == req.course_id)).isSome) :
    create_enrollment db req now =
      .error ⟨400, "Estudiante ya inscrito en este curso"⟩ ∧
    applyCreateEnrollment db req now = db ∧
    (enrollmentPairCount db req.student_id req.course_id = 1 →
      enrollmentPairCount (applyCreateEnrollment db req now)
        req.student_id req.course_id = 1) := by
  rcases Option.isSome_iff_exists.mp hstudent with ⟨u, hu⟩
  rcases Option.isSome_iff_exists.mp hcourse with ⟨c, hc⟩
  have herr : create_enrollment db req now =
      .error ⟨400, "Estudiante ya inscrito en este curso"⟩ := by
    simp [create_enrollment, hu, hc, hdup]
  have happ : applyCreateEnrollment db req now = db := by
    simp [applyCreateEnrollment, herr]
  exact ⟨herr, happ, fun h1 => by rw [happ]; exact h1⟩

/-- Witness for the duplicate-enrollment theorem: re-enrolling student 1 in
course 1 of the concrete store fails and keeps the pair count at 1. -/
theorem create_enrollment_duplicate_conflict_witness :
    create_enrollment demoStore ⟨1, 1⟩ 7 =
      .error ⟨400, "Estudiante ya inscrito en este curso"⟩ ∧
    enrollmentPairCount (applyCreateEnrollment demoStore ⟨1, 1⟩ 7) 1 1 = 1 := by
  have h := create_enrollment_duplicate_conflict demoStore ⟨1, 1⟩ 7
    (by decide) (by decide) (by decide)
  exact ⟨h.1, h.2.2 (by decide)⟩

/-- C4: with both referenced users present, the parent-link endpoint rejects
a first user whose role is not parent and a second user whose role is not
student with the role errors (HTTP 400, the BadRequest class of the
specification taxonomy), rejects a duplicate (parent, student) pair with the
duplicate-link error (HTTP 400, the taxonomy's Conflict class), and
otherwise creates the link. -/
theorem link_parent_role_checks (db : Store) (link : ParentStudentLinkCreate)
    (parent student : User)
    (hp : db.users.find? (fun u => u.id == link.parent_id) = some parent)
    (hs : db.users.find? (fun u => u.id == link.student_id) = some student) :
    (parent.role ≠ Role.parent →
      link_parent_to_student db link =
        .error ⟨400, "El usuario no es un padre"⟩) ∧
    (parent.role = Role.parent → student.role ≠ Role.student →
      link_parent_to_student db link =
        .error ⟨400, "El usuario no es un estudiante"⟩) ∧
    (parent.role = Role.parent → student.role = Role.student →
      (db.parent_links.find? (fun l => l.parent_id == link.parent_id &&
          l.student_id == link.student_id)).isSome →
      link_parent_to_student db link = .error ⟨400, "Vinculo ya existe"⟩) ∧
    (parent.role = Role.parent → student.role = Role.student →
      db.parent_links.find? (fun l => l.parent_id == link.parent_id &&
          l.student_id == link.student_id) = none →
      ∃ db2, link_parent_to_student db link = .ok (db2, "Vinculo creado") ∧
        ∃ pl ∈ db2.parent_links,
          pl.parent_id = link.parent_id ∧ pl.student_id = link.student_id) := by
  refine ⟨?_, ?_, ?_, ?_⟩
  · intro h1
    simp [link_parent_to_student, hp, hs, h1]
  · intro h1 h2
    simp [link_parent_to_student, hp, hs, h1, h2]
  · intro h1 h2 h3
    rcases Option.isSome_iff_exists.mp h3 with ⟨pl, hpl⟩
    simp [link_parent_to_student, hp, hs, h1, h2, hpl]
  · intro h1 h2 h3
    refine ⟨{ db with
        parent_links := db.parent_links ++
          [⟨db.next_link_id, link.parent_id, link.student_id⟩],
        next_link_id := db.next_link_id + 1 }, ?_, ?_⟩
    · simp [link_parent_to_student, hp, hs, h1, h2, h3]
    · exact ⟨⟨db.next_link_id, link.parent_id, link.student_id⟩,
        by simp, rfl, rfl⟩

/-- Witness for the parent-link theorem: linking parent 3 to student 1 in the
concrete store creates a link. -/
theorem link_parent_role_checks_witness :
    ∃ db2, link_parent_to_student demoStore ⟨3, 1⟩ = .ok (db2, "Vinculo creado") ∧
      ∃ pl ∈ db2.parent_links, pl.parent_id = 3 ∧ pl.student_id = 1 :=
  (link_parent_role_checks demoStore ⟨3, 1⟩ demoParent demoStudent
    (by decide) (by decide)).2.2.2 rfl rfl (by decide)

/-- C5: with the application and the reviewer present, a reviewer whose role
is neither superuser nor director is rejected with Forbidden and the
application dict is unchanged; a superuser or director reviewer commits the
requested status and records the review instant and reviewer id. -/
theorem application_review_role_gate
    (apps : List (Int × StudentApplication)) (db : Store) (aid : Int)
    (st : ApplicationStatus) (rb now : Int)
    (entry : Int × StudentApplication) (reviewer : User)
    (happ : apps.find? (fun p => p.1 == aid) = some entry)
    (hrev : db.users.find? (fun u => u.id == rb) = some reviewer) :
    (reviewer.role ≠ Role.superuser → reviewer.role ≠ Role.director →
      update_application_status apps db aid st rb now =
        .error ⟨403, "Only superuser or director can review applications"⟩ ∧
      applyUpdateApplicationStatus apps db aid st rb now = apps) ∧
    (reviewer.role = Role.superuser ∨ reviewer.role = Role.director →
      ∃ apps2 updated,
        update_application_status apps db aid st rb now = .ok (apps2, updated) ∧
        updated.status = st ∧ updated.reviewed_at = some now ∧
        updated.reviewed_by = some rb ∧ (aid, updated) ∈ apps2) := by
  constructor
  · intro h1 h2
    have herr : update_application_status apps db aid st rb now =
        .error ⟨403, "Only superuser or director can review applications"⟩ := by
      simp [update_application_status, happ, hrev, h1, h2]
    exact ⟨herr, by simp [applyUpdateApplicationStatus, herr]⟩
  · intro hrole
    have hcond : ¬(reviewer.role ≠ Role.superuser ∧ reviewer.role ≠ Role.director) := by
      rcases hrole with h | h <;> simp [h]
    refine ⟨apps.map (fun p => if p.1 == aid then
        (p.1, reviewedApp entry.2 st rb now) else p),
      reviewedApp entry.2 st rb now, ?_, rfl, rfl, rfl, ?_⟩
    · simp only [update_application_status, happ, hrev]
      rw [if_neg hcond]
    · have hmem : entry ∈ apps := List.mem_of_find?_eq_some happ
      have hkey : entry.1 = aid := by
        have hk := List.find?_some happ
        simpa using hk
      refine List.mem_map.mpr ⟨entry, hmem, ?_⟩
      simp [hkey]

/-- Witness for the application-review theorem: director 4 approving
application 1 of the concrete dict records status, instant and reviewer. -/
theorem application_review_role_gate_witness :
    ∃ apps2 updated,
      update_application_status demoApps demoStore 1
        ApplicationStatus.approved 4 12 = .ok (apps2, updated) ∧
      updated.status = ApplicationStatus.approved ∧
      updated.reviewed_at = some 12 ∧ updated.reviewed_by = some 4 ∧
      (1, updated) ∈ apps2 :=
  (application_review_role_gate demoApps demoStore 1
    ApplicationStatus.approved 4 12 (1, demoApplication) demoDirector
    (by decide) (by decide)).2 (Or.inr rfl)

theorem countCorrectFrom_drop :
    ∀ (answers : List Int) (questions : List QuizQuestion) (i : Nat),
      countCorrectFrom questions i answers =
        countCorrectFrom (questions.drop i) 0 answers := by
  intro answers
  induction answers with
  | nil => intro q i; rfl
  | cons a rest ih =>
    intro q i
    simp only [countCorrectFrom]
    rw [ih q (i + 1), ih (q.drop i) 1, List.drop_drop]
    rw [List.getElem?_drop]
    simp

theorem countCorrect_eq_spec :
    ∀ (answers : List Int) (questions : List QuizQuestion),
      countCorrect questions answers = specCorrectCount questions answers := by
  intro answers
  induction answers with
  | nil => intro q; rfl
  | cons a rest ih =>
    intro q
    unfold countCorrect at ih ⊢
    simp only [countCorrectFrom]
    rw [countCorrectFrom_drop rest q 1, ih (q.drop 1)]
    unfold specCorrectCount
    simp only [List.length_cons, List.range_succ_eq_map, List.countP_cons,
      List.countP_map]
    have hshift : (specHit q (a :: rest) ∘ Nat.succ) = specHit (q.drop 1) rest := by
      funext j
      have h1 : (1 : Nat) + j = j + 1 := Nat.add_comm 1 j
      simp only [Function.comp_apply, specHit, List.getElem?_drop, h1,
        Nat.succ_eq_add_one, List.getElem?_cons_succ]
    rw [hshift]
    have hhead : (if specHit q (a :: rest) 0 = true then 1 else 0) =
        (match q[0]? with
         | some qq => if qq.correct_answer == a then 1 else 0
         | none => 0) := by
      simp only [specHit, List.getElem?_cons_zero]
      rcases q[0]? with _ | qq
      · rfl
      · rfl
    rw [hhead]
    exact (Nat.add_comm _ _)

theorem specCorrectCount_le (questions : List QuizQuestion)
    (answers : List Int) :
    specCorrectCount questions answers ≤ questions.length := by
  unfold specCorrectCount
  rw [List.countP_eq_length_filter]
  have hsub : (List.range answers.length).filter (specHit questions answers) ⊆
      List.range questions.length := by
    intro x hx
    have hx2 : specHit questions answers x = true := List.of_mem_filter hx
    unfold specHit at hx2
    rcases hq : questions[x]? with _ | q
    · rw [hq] at hx2
      rcases ha : answers[x]? with _ | a <;> simp [ha] at hx2
    · have hlt : x < questions.length := by
        by_contra hge
        rw [List.getElem?_eq_none (by omega)] at hq
        exact Option.noConfusion hq
      simpa [List.mem_range] using hlt
  have hnd : ((List.range answers.length).filter
      (specHit questions answers)).Nodup :=
    (List.nodup_range _).filter _
  simpa using (List.subperm_of_subset hnd hsub).length_le

theorem complete_lesson_ok_of_lesson (db : Store) (lid sid now : Int)
    (lesson : Lesson)
    (hl : db.lessons.find? (fun l => l.id == lid) = some lesson) :
    ∃ db2 msg, complete_lesson db lid sid now = .ok (db2, msg) := by
  unfold complete_lesson
  rw [hl]
  rcases hc : db.lesson_completions.find?
      (fun c => c.lesson_id == lid && c.student_id == sid) with _ | c <;>
    rw [hc]
  · exact ⟨_, _, rfl⟩
  · exact ⟨db, _, rfl⟩

theorem complete_lesson_preserves_quiz_results {db d : Store} {l s t : Int}
    {m : String} (h : complete_lesson db l s t = .ok (d, m)) :
    d.quiz_results = db.quiz_results := by
  unfold complete_lesson at h
  rcases hl : db.lessons.find? (fun x => x.id == l) with _ | lesson <;>
    rw [hl] at h
  · exact absurd h (by simp)
  rcases hc : db.lesson_completions.find?
      (fun c => c.lesson_id == l && c.student_id == s) with _ | c <;>
    rw [hc] at h
  · simp only [Except.ok.injEq, Prod.mk.injEq] at h
    rw [← h.1]
  · simp only [Except.ok.injEq, Prod.mk.injEq] at h
    rw [← h.1]

/-- C1: a quiz submission against an existing lesson of kind quiz whose
content parses to a question list succeeds; the stored correct count equals
the number of answer positions within the question bounds whose submitted
index matches the question's correct index, the total is the question count,
and the score is (correct / total) x 100 with a positive question count and
0 otherwise. -/
theorem submit_quiz_grading (db : Store) (sub : QuizSubmission)
    (student_id now : Int) (lesson : Lesson) (questions : List QuizQuestion)
    (hfind : db.lessons.find? (fun l => l.id == sub.lesson_id) = some lesson)
    (htype : lesson.lesson_type = LessonType.quiz)
    (hcont : lesson.content = LessonContent.quiz questions) :
    ∃ db2 res, submit_quiz db sub student_id now = .ok (db2, res) ∧
      res.correct_answers = specCorrectCount questions sub.answers ∧
      res.total_questions = questions.length ∧
      (0 < questions.length →
        res.score = ((res.correct_answers : Rat) / (questions.length : Rat)) * 100) ∧
      (questions.length = 0 → res.score = 0) := by
  obtain ⟨d2, msg, hc2⟩ := complete_lesson_ok_of_lesson
    (gradedStore db sub student_id now questions) sub.lesson_id student_id now
    lesson hfind
  refine ⟨d2, gradedResult db sub student_id now questions, ?_, ?_, rfl, ?_, ?_⟩
  · simp only [submit_quiz, hfind, htype, hcont]
    rw [hc2]
    simp
  · simp only [gradedResult]
    exact countCorrect_eq_spec sub.answers questions
  · intro hpos
    have hne : questions.isEmpty = false := by
      rcases questions with _ | ⟨x, xs⟩
      · simp at hpos
      · rfl
    simp [gradedResult, hne]
  · intro hzero
    have hempty : questions.isEmpty = true := by
      rcases questions with _ | ⟨x, xs⟩
      · rfl
      · simp at hzero
    simp [gradedResult, hempty]

/-- Witness for the grading theorem: in the concrete store, answers [1, 0]
against the two-question quiz lesson score one point out of two. -/
theorem submit_quiz_grading_witness :
    ∃ db2 res,
      submit_quiz demoStore { lesson_id := 2, answers := [1, 0] } 1 5 =
        .ok (db2, res) ∧
      res.correct_answers = specCorrectCount
        [{ question := "q1", options := ["a", "b"], correct_answer := 1 },
         { question := "q2", options := ["a", "b"], correct_answer := 1 }]
        [1, 0] ∧
      res.total_questions = 2 ∧
      (0 < 2 → res.score = ((res.correct_answers : Rat) / (2 : Rat)) * 100) ∧
      (2 = 0 → res.score = 0) :=
  submit_quiz_grading demoStore { lesson_id := 2, answers := [1, 0] } 1 5
    (demoStore.lessons.get ⟨1, by decide⟩)
    [{ question := "q1", options := ["a", "b"], correct_answer := 1 },
     { question := "q2", options := ["a", "b"], correct_answer := 1 }]
    (by decide) (by decide) (by decide)

/-- C10: every successful quiz submission stores a result whose correct count
is at most the parsed question count and whose score lies between 0 and 100,
for arbitrary submitted answer lists. -/
theorem quiz_result_bounds (db : Store) (sub : QuizSubmission)
    (student_id now : Int) (db2 : Store) (res : QuizResult)
    (h : submit_quiz db sub student_id now = .ok (db2, res)) :
    res ∈ db2.quiz_results ∧
    res.correct_answers ≤ res.total_questions ∧
    0 ≤ res.score ∧ res.score ≤ 100 := by
  unfold submit_quiz at h
  split at h
  · exact absurd h (by simp)
  next lesson hfind =>
  split at h
  · exact absurd h (by simp)
  next htype =>
  split at h
  · exact absurd h (by simp)
  next questions hcont =>
  split at h
  swap
  · exact absurd h (by simp)
  next d2s d2m hcl =>
  simp only [Except.ok.injEq, Prod.mk.injEq] at h
  obtain ⟨hdb2, hres⟩ := h
  subst hdb2
  subst hres
  have hqr : d2s.quiz_results =
      (gradedStore db sub student_id now questions).quiz_results :=
    complete_lesson_preserves_quiz_results hcl
  have hcc : countCorrect questions sub.answers ≤ questions.length := by
    rw [countCorrect_eq_spec]
    exact specCorrectCount_le questions sub.answers
  refine ⟨?_, ?_, ?_, ?_⟩
  · rw [hqr]
    simp [gradedStore]
  · exact hcc
  · rcases hq : questions.isEmpty with _ | _
    · simp only [gradedResult, hq, if_false]
      positivity
    · simp [gradedResult, hq]
  · rcases hq : questions.isEmpty with _ | _
    · have hposn : 0 < questions.length := by
        rcases questions with _ | ⟨x, xs⟩
        · simp at hq
        · simp
      have hpos : (0 : Rat) < (questions.length : Rat) := by
        exact_mod_cast hposn
      clear hposn
      have hle1 : ((countCorrect questions sub.answers : Rat) /
          (questions.length : Rat)) ≤ 1 := by
        rw [div_le_one hpos]
        exact_mod_cast hcc
      simp only [gradedResult, hq, if_false]
      calc ((countCorrect questions sub.answers : Rat) /
            (questions.length : Rat)) * 100 ≤ 1 * 100 :=
          mul_le_mul_of_nonneg_right hle1 (by norm_num)
        _ = 100 := one_mul 100
    · simp [gradedResult, hq]

/-- Witness for the bounds theorem at the concrete submission. -/
theorem quiz_result_bounds_witness :
    demoQuizResult ∈ demoQuizStore2.quiz_results ∧
    demoQuizResult.correct_answers ≤ demoQuizResult.total_questions ∧
    0 ≤ demoQuizResult.score ∧ demoQuizResult.score ≤ 100 :=
  quiz_result_bounds demoStore { lesson_id := 2, answers := [1, 0] } 1 5
    demoQuizStore2 demoQuizResult rfl

theorem mem_progress_inversion (db : Store) (sid : Int)
    (out : List StudentProgress) (p : StudentProgress)
    (h : get_student_progress db sid = .ok out) (hp : p ∈ out) :
    ∃ course : Course,
      p.course_id = course.id ∧
      p.total_lessons = (courseLessons db course.id).length ∧
      p.completed_lessons = progressCompleted db sid course.id ∧
      p.average_quiz_score = progressAvgQuiz db sid course.id := by
  unfold get_student_progress at h
  split at h
  · exact absurd h (by simp)
  next student hstudent =>
  simp only [Except.ok.injEq] at h
  subst h
  rcases List.mem_filterMap.mp hp with ⟨e, he, hfe⟩
  rcases hc : db.courses.find? (fun c => c.id == e.course_id) with _ | course <;>
    rw [hc] at hfe
  · exact absurd hfe (by simp)
  · simp only [Option.some.injEq] at hfe
    subst hfe
    exact ⟨course, rfl, rfl, rfl, rfl⟩

theorem countP_completions_le (completions : List LessonCompletion) (sid : Int)
    (ids : List Int)
    (huniq : (completions.map (fun c => (c.student_id, c.lesson_id))).Nodup) :
    completions.countP
      (fun c => c.student_id == sid && ids.contains c.lesson_id) ≤
      ids.length := by
  rw [List.countP_eq_length_filter]
  have hsubl : List.Sublist (completions.filter
      (fun c => c.student_id == sid && ids.contains c.lesson_id)) completions :=
    List.filter_sublist _
  have hndpairs : ((completions.filter
      (fun c => c.student_id == sid && ids.contains c.lesson_id)).map
      (fun c => (c.student_id, c.lesson_id))).Nodup :=
    List.Nodup.sublist (hsubl.map _) huniq
  have hndfl : (completions.filter
      (fun c => c.student_id == sid && ids.contains c.lesson_id)).Nodup :=
    List.Nodup.of_map _ hndpairs
  have hinj := List.inj_on_of_nodup_map hndpairs
  have hstud : ∀ c ∈ completions.filter
      (fun c => c.student_id == sid && ids.contains c.lesson_id),
      c.student_id = sid := by
    intro c hc
    have hmf := List.of_mem_filter hc
    simp only [Bool.and_eq_true, beq_iff_eq] at hmf
    exact hmf.1
  have hndids : ((completions.filter
      (fun c => c.student_id == sid && ids.contains c.lesson_id)).map
      (fun c => c.lesson_id)).Nodup := by
    refine List.Nodup.map_on ?_ hndfl
    intro x hx y hy hxy
    refine hinj hx hy ?_
    rw [Prod.mk.injEq]
    exact ⟨by rw [hstud x hx, hstud y hy], hxy⟩
  have hsub : ((completions.filter
      (fun c => c.student_id == sid && ids.contains c.lesson_id)).map
      (fun c => c.lesson_id)) ⊆ ids := by
    intro i hi
    rcases List.mem_map.mp hi with ⟨c, hc, hci⟩
    have hmf := List.of_mem_filter hc
    simp only [Bool.and_eq_true, beq_iff_eq] at hmf
    rw [← hci]
    exact List.elem_iff.mp hmf.2
  have hlen := (List.subperm_of_subset hndids hsub).length_le
  simpa using hlen

/-- C6: in every per-course summary of the progress aggregation over a store
whose lesson completions are unique per (student, lesson) pair, the completed
lesson count is at most the total lesson count. -/
theorem progress_completed_le_total (db : Store) (sid : Int)
    (out : List StudentProgress)
    (huniq : UniqueCompletionPairs db)
    (h : get_student_progress db sid = .ok out) :
    ∀ p ∈ out, p.completed_lessons ≤ p.total_lessons := by
  intro p hp
  obtain ⟨course, hcid, htot, hcomp, havg⟩ :=
    mem_progress_inversion db sid out p h hp
  rw [hcomp, htot]
  unfold progressCompleted
  rcases hie : (courseLessonIds db course.id).isEmpty with _ | _
  · rw [if_neg (by simp [hie])]
    have hle := countP_completions_le db.lesson_completions sid
      (courseLessonIds db course.id) huniq
    simpa [courseLessonIds] using hle
  · simp [hie]

theorem demoProgress_eq : demoProgress = [demoProgressHead] := rfl

/-- Witness for the completed-vs-total theorem at the concrete store. -/
theorem progress_completed_le_total_witness :
    demoProgressHead.completed_lessons ≤ demoProgressHead.total_lessons :=
  progress_completed_le_total demoStore 1 demoProgress
    (by unfold UniqueCompletionPairs; decide) rfl demoProgressHead
    (by rw [demoProgress_eq]; exact List.mem_singleton_self _)

theorem courseQuizResults_eq_progress (db : Store) (sid cid : Int) :
    courseQuizResults db sid cid = progressQuizResults db sid cid := by
  have hAB : db.lessons.filter
      (fun l => l.course_id == cid && l.lesson_type == LessonType.quiz) =
      (courseLessons db cid).filter
        (fun l => l.lesson_type == LessonType.quiz) := by
    unfold courseLessons
    rw [List.filter_filter]
    exact List.filter_congr (fun a _ => Bool.and_comm _ _)
  unfold courseQuizResults progressQuizResults courseQuizLessonIds
  rw [hAB]
  rcases hie : (((courseLessons db cid).filter
      (fun l => l.lesson_type == LessonType.quiz)).map (fun l => l.id)).isEmpty
    with _ | _
  · rw [if_neg (by simp [hie])]
  · rw [if_pos (by simp [hie])]
    rw [List.isEmpty_iff] at hie
    rw [hie]
    refine List.filter_eq_nil_iff.mpr (fun q hq => ?_)
    simp

/-- C7: in every per-course summary of the progress aggregation, the average
quiz score is None exactly when the student has no quiz results on the
course's quiz-kind lessons, and otherwise equals the arithmetic mean of those
results' scores. -/
theorem progress_average_quiz (db : Store) (sid : Int)
    (out : List StudentProgress)
    (h : get_student_progress db sid = .ok out) :
    ∀ p ∈ out,
      (p.average_quiz_score = none ↔
        courseQuizResults db sid p.course_id = []) ∧
      (courseQuizResults db sid p.course_id ≠ [] →
        p.average_quiz_score = some
          (((courseQuizResults db sid p.course_id).map (fun r => r.score)).sum /
            ((courseQuizResults db sid p.course_id).length : Rat))) := by
  intro p hp
  obtain ⟨course, hcid, htot, hcomp, havg⟩ :=
    mem_progress_inversion db sid out p h hp
  rw [havg, hcid, courseQuizResults_eq_progress]
  unfold progressAvgQuiz
  rcases hie : (progressQuizResults db sid course.id).isEmpty with _ | _
  · rw [if_neg (by simp [hie])]
    constructor
    · constructor
      · intro hsome
        exact absurd hsome (by simp)
      · intro hnil
        rw [hnil] at hie
        simp at hie
    · intro hne
      rfl
  · rw [if_pos (by simp [hie])]
    rw [List.isEmpty_iff] at hie
    constructor
    · simp [hie]
    · intro hne
      exact absurd hie hne

/-- Witness for the average-quiz theorem at the concrete store. -/
theorem progress_average_quiz_witness :
    demoProgressHead.average_quiz_score = some
      (((courseQuizResults demoStore 1 demoProgressHead.course_id).map
          (fun r => r.score)).sum /
        ((courseQuizResults demoStore 1 demoProgressHead.course_id).length : Rat)) :=
  (progress_average_quiz demoStore 1 demoProgress rfl demoProgressHead
    (by rw [demoProgress_eq]; exact List.mem_singleton_self _)).2 (by decide)

theorem replaceAll_nil (pat : List Char) : replaceAll pat [] = [] := by
  rw [replaceAll.eq_def]

theorem replaceAll_cons (pat : List Char) (c : Char) (rest : List Char) :
    replaceAll pat (c :: rest) =
      if h : pat ≠ [] ∧ pat.isPrefixOf (c :: rest) then
        replaceAll pat ((c :: rest).drop pat.length)
      else c :: replaceAll pat rest := by
  rw [replaceAll.eq_def]

theorem natDigits_ne_nil (n : Nat) : natDigits n ≠ [] := by
  unfold natDigits
  split
  · simp
  · simp

theorem digitChar_mem_digits (d : Nat) :
    digitChar d ∈ ['0', '1', '2', '3', '4', '5', '6', '7', '8', '9'] := by
  unfold digitChar
  split <;> decide

theorem natDigits_all_digits (n : Nat) :
    ∀ c ∈ natDigits n, c ∈ ['0', '1', '2', '3', '4', '5', '6', '7', '8', '9'] := by
  induction n using Nat.strong_induction_on with
  | _ n ih =>
    unfold natDigits
    split
    · intro c hc
      simp only [List.mem_singleton] at hc
      subst hc
      exact digitChar_mem_digits n
    next h10 =>
      intro c hc
      rcases List.mem_append.mp hc with h1 | h2
      · exact ih (n / 10) (Nat.div_lt_self (by omega) (by omega)) c h1
      · simp only [List.mem_singleton] at h2
        subst h2
        exact digitChar_mem_digits (n % 10)

theorem digits_list_ne_t :
    ∀ c ∈ ['0', '1', '2', '3', '4', '5', '6', '7', '8', '9'], c ≠ 't' := by
  decide

theorem pyStrInt_ne_t (i : Int) : ∀ c ∈ pyStrInt i, c ≠ 't' := by
  intro c hc
  unfold pyStrInt at hc
  split at hc
  · rcases List.mem_cons.mp hc with h1 | h2
    · subst h1; decide
    · exact digits_list_ne_t c (natDigits_all_digits _ c h2)
  · exact digits_list_ne_t c (natDigits_all_digits _ c hc)

theorem replaceAll_no_t (s : List Char) (h : ∀ c ∈ s, c ≠ 't') :
    replaceAll tokenPat s = s := by
  induction s with
  | nil => exact replaceAll_nil _
  | cons c rest ih =>
    have hct : c ≠ 't' := h c (List.mem_cons_self c rest)
    have hnot : ¬(tokenPat ≠ [] ∧ tokenPat.isPrefixOf (c :: rest) = true) := by
      rintro ⟨h1, h2⟩
      simp only [tokenPat, List.isPrefixOf, Bool.and_eq_true, beq_iff_eq] at h2
      exact hct h2.1.symm
    rw [replaceAll_cons, dif_neg hnot,
      ih (fun x hx => h x (List.mem_cons_of_mem c hx))]

theorem replaceAll_pat_append (s : List Char) :
    replaceAll tokenPat (tokenPat ++ s) = replaceAll tokenPat s := by
  have hpre : tokenPat ≠ [] ∧ tokenPat.isPrefixOf (tokenPat ++ s) = true := by
    constructor
    · simp [tokenPat]
    · exact List.isPrefixOf_iff_prefix.mpr (List.prefix_append _ _)
  have hcons : tokenPat ++ s = 't' :: (('o' :: 'k' :: 'e' :: 'n' :: '_' :: []) ++ s) := rfl
  rw [hcons, replaceAll_cons, ← hcons, dif_pos hpre, List.drop_left]

theorem digitVal_digitChar (d : Nat) (hd : d < 10) :
    digitVal (digitChar d) = some d := by
  interval_cases d <;> rfl

theorem parseDigits_append (acc : Nat) (xs ys : List Char) :
    parseDigits acc (xs ++ ys) =
      match parseDigits acc xs with
      | some a => parseDigits a ys
      | none => none := by
  induction xs generalizing acc with
  | nil => rfl
  | cons c rest ih =>
    rcases hdv : digitVal c with _ | d <;>
      simp only [List.cons_append, parseDigits, hdv]
    exact ih _

theorem parseDigits_natDigits (n : Nat) : ∀ acc : Nat,
    parseDigits acc (natDigits n) =
      some (acc * 10 ^ (natDigits n).length + n) := by
  induction n using Nat.strong_induction_on with
  | _ n ih =>
    intro acc
    by_cases h10 : n < 10
    · unfold natDigits
      rw [dif_pos h10]
      simp only [parseDigits, digitVal_digitChar n h10, List.length_singleton,
        pow_one]
    · unfold natDigits
      rw [dif_neg h10, parseDigits_append,
        ih (n / 10) (Nat.div_lt_self (by omega) (by omega)) acc]
      simp only [parseDigits, digitVal_digitChar (n % 10) (Nat.mod_lt n (by omega)),
        List.length_append, List.length_singleton]
      congr 1
      have hdm : n / 10 * 10 + n % 10 = n := by omega
      calc (acc * 10 ^ (natDigits (n / 10)).length + n / 10) * 10 + n % 10
          = acc * (10 ^ (natDigits (n / 10)).length * 10) +
            (n / 10 * 10 + n % 10) := by ring
        _ = acc * 10 ^ ((natDigits (n / 10)).length + 1) + n := by
            rw [hdm, pow_succ]

theorem digits_list_ne_minus :
    ∀ c ∈ ['0', '1', '2', '3', '4', '5', '6', '7', '8', '9'], c ≠ '-' := by
  decide

theorem pyInt_pyStrInt (i : Int) : pyInt (pyStrInt i) = some i := by
  by_cases hneg : i < 0
  · unfold pyStrInt
    rw [if_pos hneg]
    have hne : (natDigits i.natAbs).isEmpty = false := by
      rcases hnd : natDigits i.natAbs with _ | ⟨c, rest⟩
      · exact absurd hnd (natDigits_ne_nil _)
      · rfl
    have habs : (i.natAbs : Int) = -i := by omega
    simp only [pyInt, if_pos rfl, hne, Bool.false_eq_true, if_false,
      parseDigits_natDigits, Option.map_some, Nat.zero_mul, Nat.zero_add,
      habs, neg_neg]
    simp [habs]
  · unfold pyStrInt
    rw [if_neg hneg]
    rcases hnd : natDigits i.natAbs with _ | ⟨c, rest⟩
    · exact absurd hnd (natDigits_ne_nil _)
    have hcd : c ∈ ['0', '1', '2', '3', '4', '5', '6', '7', '8', '9'] :=
      natDigits_all_digits _ c (by rw [hnd]; exact List.mem_cons_self _ _)
    have hcm : c ≠ '-' := digits_list_ne_minus c hcd
    have hstep : pyInt (c :: rest) =
        (parseDigits 0 (c :: rest)).map (fun n => (n : Int)) := by
      simp [pyInt, hcm]
    rw [hstep, ← hnd, parseDigits_natDigits]
    have habs : (i.natAbs : Int) = i := by omega
    simp [habs]

theorem find?_id_of_nodup (users : List User) (u : User)
    (hnd : (users.map (fun x => x.id)).Nodup) (hmem : u ∈ users) :
    users.find? (fun x => x.id == u.id) = some u := by
  induction users with
  | nil => cases hmem
  | cons v rest ih =>
    rcases List.mem_cons.mp hmem with h1 | h2
    · subst h1
      simp [List.find?]
    · simp only [List.map_cons, List.nodup_cons] at hnd
      by_cases hvid : v.id = u.id
      · exact absurd (hvid ▸ List.mem_map_of_mem _ h2) hnd.1
      · rw [List.find?_cons_of_neg _ (by simp [hvid])]
        exact ih hnd.2 h2

theorem get_current_user_roundtrip (db : Store) (u : User)
    (hnodup : (db.users.map (fun x => x.id)).Nodup) (hmem : u ∈ db.users) :
    get_current_user db (mkToken u.id) = .ok (userView u) := by
  have hfind : db.users.find? (fun x => x.id == u.id) = some u :=
    find?_id_of_nodup db.users u hnodup hmem
  unfold get_current_user mkToken
  rw [replaceAll_pat_append, replaceAll_no_t _ (pyStrInt_ne_t u.id),
    pyInt_pyStrInt]
  simp [hfind]

/-- C9: the session token issued by register and login for a user with id i
is the characters of "token_" followed by the decimal rendering of i, and
the current-user lookup on that token returns that same user's data, so
lookup after login is the identity on a store with distinct user ids. -/
theorem session_token_roundtrip (db : Store) (u : User)
    (hnodup : (db.users.map (fun x => x.id)).Nodup)
    (hmem : u ∈ db.users) :
    get_current_user db (mkToken u.id) = .ok (userView u) ∧
    (∀ creds t, login db creds = .ok t → t.access_token = mkToken t.user.id) ∧
    (∀ req now db2 t, register db req now = .ok (db2, t) →
      t.access_token = mkToken t.user.id) := by
  refine ⟨get_current_user_roundtrip db u hnodup hmem, ?_, ?_⟩
  · intro creds t hlog
    unfold login at hlog
    split at hlog
    · exact absurd hlog (by simp)
    next user huser =>
      simp only [Except.ok.injEq] at hlog
      subst hlog
      rfl
  · intro req now db2 t hreg
    unfold register at hreg
    split at hreg
    · exact absurd hreg (by simp)
    · simp only [Except.ok.injEq, Prod.mk.injEq] at hreg
      obtain ⟨hdb2, ht⟩ := hreg
      subst ht
      rfl

/-- Witness for the token round-trip: looking up the token of user 1 of the
concrete store returns user 1's data. -/
theorem session_token_roundtrip_witness :
    get_current_user demoStore (mkToken demoStudent.id) =
      .ok (userView demoStudent) :=
  (session_token_roundtrip demoStore demoStudent (by decide) (by decide)).1

theorem convLookup_eq_none {state : List (Int × Conversation)} {k : Int} :
    convLookup state k = none ↔ ∀ p ∈ state, p.1 ≠ k := by
  unfold convLookup
  constructor
  · intro h p hp hk
    rcases hf : state.find? (fun q => q.1 == k) with _ | q
    · rw [List.find?_eq_none] at hf
      exact hf p hp (by simp [hk])
    · rw [hf] at h
      simp at h
  · intro h
    have hf : state.find? (fun q => q.1 == k) = none :=
      List.find?_eq_none.mpr (fun p hp => by simp [h p hp])
    rw [hf]
    rfl

theorem convLookup_some_mem {state : List (Int × Conversation)} {k : Int}
    {c : Conversation} (h : convLookup state k = some c) :
    ∃ q ∈ state, q.1 = k ∧ q.2 = c := by
  unfold convLookup at h
  rcases hf : state.find? (fun p => p.1 == k) with _ | q
  · rw [hf] at h
    simp at h
  · rw [hf] at h
    simp at h
    refine ⟨q, List.mem_of_find?_eq_some hf, ?_, h⟩
    have hq := List.find?_some hf
    simpa using hq

theorem mem_convUpdate {state : List (Int × Conversation)} {k : Int}
    {f : Conversation → Conversation} {p : Int × Conversation}
    (hp : p ∈ convUpdate state k f) :
    ∃ q ∈ state, (q.1 ≠ k ∧ p = q) ∨ (q.1 = k ∧ p = (q.1, f q.2)) := by
  rcases List.mem_map.mp hp with ⟨q, hq, hpq⟩
  by_cases hk : q.1 = k
  · exact ⟨q, hq, Or.inr ⟨hk, by rw [← hpq]; simp [hk]⟩⟩
  · exact ⟨q, hq, Or.inl ⟨hk, by rw [← hpq]; simp [hk]⟩⟩

theorem convUpdate_keys (state : List (Int × Conversation)) (k : Int)
    (f : Conversation → Conversation) :
    ∀ q ∈ state, ∃ p ∈ convUpdate state k f, p.1 = q.1 := by
  intro q hq
  by_cases hk : q.1 = k
  · refine ⟨(q.1, f q.2), List.mem_map.mpr ⟨q, hq, ?_⟩, rfl⟩
    rw [if_pos (by simp [hk])]
  · refine ⟨q, List.mem_map.mpr ⟨q, hq, ?_⟩, rfl⟩
    rw [if_neg (by simp [hk])]

theorem convLookup_convUpdate (state : List (Int × Conversation)) (k : Int)
    (f : Conversation → Conversation) :
    convLookup (convUpdate state k f) k = (convLookup state k).map f := by
  unfold convLookup convUpdate
  induction state with
  | nil => rfl
  | cons p rest ih =>
    by_cases hp : p.1 = k
    · simp only [List.map_cons, if_pos (by simp [hp] : (p.1 == k) = true)]
      rw [List.find?_cons_of_pos _ (by simp [hp]),
        List.find?_cons_of_pos _ (by simp [hp])]
      simp
    · simp only [List.map_cons, if_neg (by simp [hp] : ¬(p.1 == k) = true)]
      rw [List.find?_cons_of_neg _ (by simp [hp]),
        List.find?_cons_of_neg _ (by simp [hp])]
      exact ih

theorem convUpdate_convUpdate (state : List (Int × Conversation)) (k : Int)
    (f g : Conversation → Conversation) :
    convUpdate (convUpdate state k f) k g =
      convUpdate state k (fun c => g (f c)) := by
  unfold convUpdate
  rw [List.map_map]
  refine List.map_congr_left (fun p hp => ?_)
  by_cases hk : p.1 = k <;> simp [hk]

theorem convUpdate_id (state : List (Int × Conversation)) (k : Int) :
    convUpdate state k (fun c => c) = state := by
  unfold convUpdate
  have hsame : ∀ p ∈ state, (if p.1 == k then (p.1, p.2) else p) = p := by
    intro p hp
    by_cases hk : p.1 = k
    · rw [if_pos (by simp [hk])]
    · rw [if_neg (by simp [hk])]
  rw [List.map_congr_left hsame]
  simp

theorem ConvInv_update (users : List User) (uid : Int)
    (processed : List Message) (state : List (Int × Conversation))
    (msg : Message) (g : Conversation → Conversation)
    (hg_user : ∀ c, (g c).user_id = c.user_id)
    (hg_unread : ∀ c, (g c).unread_count = c.unread_count +
      (if unreadHit uid (otherId uid msg) msg then 1 else 0))
    (hkeyo : ∃ q ∈ state, q.1 = otherId uid msg)
    (hinv : ConvInv users uid processed state) :
    ConvInv users uid (processed ++ [msg])
      (convUpdate state (otherId uid msg) g) := by
  obtain ⟨h1, h2⟩ := hinv
  constructor
  · intro p hp
    rcases mem_convUpdate hp with ⟨q, hq, hcase⟩
    obtain ⟨hkey, hcnt⟩ := h1 q hq
    rcases hcase with ⟨hne, hpq⟩ | ⟨heq, hpq⟩
    · rw [hpq]
      refine ⟨hkey, ?_⟩
      rw [List.countP_append, List.countP_singleton, hcnt]
      have hmiss : unreadHit uid q.1 msg = false := by
        unfold unreadHit
        have hb : (otherId uid msg == q.1) = false :=
          beq_eq_false_iff_ne.mpr (Ne.symm hne)
        simp [hb]
      rw [hmiss]
      simp
    · rw [hpq]
      refine ⟨?_, ?_⟩
      · show q.1 = (g q.2).user_id
        rw [hg_user]
        exact hkey
      · show (g q.2).unread_count =
          (processed ++ [msg]).countP (unreadHit uid q.1)
        rw [hg_unread, hcnt, List.countP_append, List.countP_singleton, ← heq]
  · intro k hk hnone m hm
    have hnone0 : ∀ p ∈ state, p.1 ≠ k := by
      intro p hp
      obtain ⟨p2, hp2, hp2k⟩ := convUpdate_keys state (otherId uid msg) g p hp
      have hn := hnone p2 hp2
      rw [hp2k] at hn
      exact hn
    rcases List.mem_append.mp hm with hm1 | hm2
    · exact h2 k hk hnone0 m hm1
    · simp only [List.mem_singleton] at hm2
      obtain ⟨q, hq, hqo⟩ := hkeyo
      obtain ⟨p2, hp2, hp2k⟩ := convUpdate_keys state (otherId uid msg) g q hq
      rw [hm2]
      intro hcontra
      apply hnone p2 hp2
      rw [hp2k, hqo, hcontra]

theorem ConvInv_append (users : List User) (uid : Int)
    (processed : List Message) (state : List (Int × Conversation))
    (o : Int) (newc : Conversation)
    (hnew_user : newc.user_id = o)
    (hnew_unread : newc.unread_count = 0)
    (huser : (users.find? (fun u => u.id == o)).isSome)
    (hnokey : ∀ p ∈ state, p.1 ≠ o)
    (hinv : ConvInv users uid processed state) :
    ConvInv users uid processed (state ++ [(o, newc)]) := by
  obtain ⟨h1, h2⟩ := hinv
  constructor
  · intro p hp
    rcases List.mem_append.mp hp with hp1 | hp2
    · exact h1 p hp1
    · simp only [List.mem_singleton] at hp2
      subst hp2
      refine ⟨hnew_user.symm, ?_⟩
      show newc.unread_count = processed.countP (unreadHit uid o)
      rw [hnew_unread]
      have hz := h2 o huser hnokey
      symm
      rw [List.countP_eq_zero]
      intro m hm
      have hno := hz m hm
      simp [unreadHit, hno]
  · intro k hk hnone m hm
    have hnone0 : ∀ p ∈ state, p.1 ≠ k :=
      fun p hp => hnone p (List.mem_append_left _ hp)
    exact h2 k hk hnone0 m hm

theorem ConvInv_skip (users : List User) (uid : Int)
    (processed : List Message) (state : List (Int × Conversation))
    (msg : Message)
    (hnolook : ∀ p ∈ state, p.1 ≠ otherId uid msg)
    (hnouser : users.find? (fun u => u.id == otherId uid msg) = none)
    (hinv : ConvInv users uid processed state) :
    ConvInv users uid (processed ++ [msg]) state := by
  obtain ⟨h1, h2⟩ := hinv
  constructor
  · intro p hp
    obtain ⟨hkey, hcnt⟩ := h1 p hp
    refine ⟨hkey, ?_⟩
    rw [List.countP_append, List.countP_singleton, hcnt]
    have hb : (otherId uid msg == p.1) = false :=
      beq_eq_false_iff_ne.mpr (Ne.symm (hnolook p hp))
    have hmiss : unreadHit uid p.1 msg = false := by
      simp [unreadHit, hb]
    rw [hmiss]
    simp
  · intro k hk hnone m hm
    rcases List.mem_append.mp hm with hm1 | hm2
    · exact h2 k hk hnone m hm1
    · simp only [List.mem_singleton] at hm2
      subst hm2
      intro hcontra
      rw [hcontra] at hnouser
      rw [hnouser] at hk
      simp at hk

theorem convStep_inv (users : List User) (uid : Int) (processed : List Message)
    (state : List (Int × Conversation)) (msg : Message)
    (hinv : ConvInv users uid processed state) :
    ConvInv users uid (processed ++ [msg]) (convStep users uid state msg) := by
  have hhit_true : (msg.receiver_id == uid && !msg.is_read) = true →
      unreadHit uid (otherId uid msg) msg = true := by
    intro hc
    simp [unreadHit, hc]
  have hhit_false : (msg.receiver_id == uid && !msg.is_read) = false →
      unreadHit uid (otherId uid msg) msg = false := by
    intro hc
    simp [unreadHit, hc]
  rcases hA : convLookup state (otherId uid msg) with _ | conv0
  · rcases hU : users.find? (fun u => u.id == otherId uid msg) with _ | other_user
    · have hstep : convStep users uid state msg = state := by
        simp [convStep, hA, hU]
      rw [hstep]
      exact ConvInv_skip users uid processed state msg
        (convLookup_eq_none.mp hA) hU hinv
    · have hnokey := convLookup_eq_none.mp hA
      have hl1 : convLookup
          (state ++ [(otherId uid msg, convInit msg (otherId uid msg) other_user)])
          (otherId uid msg) =
          some (convInit msg (otherId uid msg) other_user) := by
        unfold convLookup
        rw [List.find?_append]
        have hf0 : state.find? (fun p => p.1 == otherId uid msg) = none := by
          rw [List.find?_eq_none]
          intro p hp
          simp [hnokey p hp]
        rw [hf0]
        simp [List.find?]
      have hinv1 : ConvInv users uid processed
          (state ++ [(otherId uid msg, convInit msg (otherId uid msg) other_user)]) :=
        ConvInv_append users uid processed state (otherId uid msg) _ rfl rfl
          (by simp [hU]) hnokey hinv
      have hkeyo1 : ∃ q ∈ (state ++
          [(otherId uid msg, convInit msg (otherId uid msg) other_user)]),
          q.1 = otherId uid msg :=
        ⟨_, List.mem_append_right _ (List.mem_singleton_self _), rfl⟩
      have htime0 : ¬((convInit msg (otherId uid msg) other_user).last_message_time <
          msg.created_at) := by
        simp [convInit]
      by_cases hcond : (msg.receiver_id == uid && !msg.is_read) = true
      · have hstep : convStep users uid state msg =
            convUpdate (state ++
              [(otherId uid msg, convInit msg (otherId uid msg) other_user)])
              (otherId uid msg) convIncUnread := by
          simp [convStep, hA, hU, hl1, htime0, if_false, hcond, if_true]
        rw [hstep]
        refine ConvInv_update users uid processed _ msg _ (fun c => rfl) ?_
          hkeyo1 hinv1
        intro c
        rw [hhit_true hcond]
        simp [convIncUnread]
      · have hstep : convStep users uid state msg =
            state ++ [(otherId uid msg, convInit msg (otherId uid msg) other_user)] := by
          simp [convStep, hA, hU, hl1, htime0, if_false, hcond]
        rw [hstep, ← convUpdate_id (state ++
          [(otherId uid msg, convInit msg (otherId uid msg) other_user)])
          (otherId uid msg)]
        refine ConvInv_update users uid processed _ msg _ (fun c => rfl) ?_
          hkeyo1 hinv1
        intro c
        simp only [Bool.not_eq_true] at hcond
        rw [hhit_false hcond]
        simp
  · obtain ⟨q0, hq0, hq0k, hq0c⟩ := convLookup_some_mem hA
    have hkeyo : ∃ q ∈ state, q.1 = otherId uid msg := ⟨q0, hq0, hq0k⟩
    by_cases htime : conv0.last_message_time < msg.created_at
    · by_cases hcond : (msg.receiver_id == uid && !msg.is_read) = true
      · have hstep : convStep users uid state msg =
            convUpdate (convUpdate state (otherId uid msg) (convRefresh msg))
              (otherId uid msg) convIncUnread := by
          simp [convStep, hA, htime, if_true, convLookup_convUpdate,
            Option.map_some, hcond]
        rw [hstep, convUpdate_convUpdate]
        refine ConvInv_update users uid processed _ msg _ (fun c => rfl) ?_
          hkeyo hinv
        intro c
        rw [hhit_true hcond]
        simp [convIncUnread, convRefresh]
      · have hstep : convStep users uid state msg =
            convUpdate state (otherId uid msg) (convRefresh msg) := by
          simp [convStep, hA, htime, if_true, convLookup_convUpdate,
            Option.map_some, hcond, if_false]
        rw [hstep]
        refine ConvInv_update users uid processed _ msg _ (fun c => rfl) ?_
          hkeyo hinv
        intro c
        simp only [Bool.not_eq_true] at hcond
        rw [hhit_false hcond]
        simp [convRefresh]
    · by_cases hcond : (msg.receiver_id == uid && !msg.is_read) = true
      · have hstep : convStep users uid state msg =
            convUpdate state (otherId uid msg) convIncUnread := by
          simp [convStep, hA, htime, if_false, hcond, if_true]
        rw [hstep]
        refine ConvInv_update users uid processed _ msg _ (fun c => rfl) ?_
          hkeyo hinv
        intro c
        rw [hhit_true hcond]
        simp [convIncUnread]
      · have hstep : convStep users uid state msg = state := by
          simp [convStep, hA, htime, if_false, hcond]
        rw [hstep, ← convUpdate_id state (otherId uid msg)]
        refine ConvInv_update users uid processed _ msg _ (fun c => rfl) ?_
          hkeyo hinv
        intro c
        simp only [Bool.not_eq_true] at hcond
        rw [hhit_false hcond]
        simp

theorem convFold_inv (users : List User) (uid : Int) :
    ∀ (pending : List Message) (processed : List Message)
      (state : List (Int × Conversation)),
      ConvInv users uid processed state →
      ConvInv users uid (processed ++ pending)
        (pending.foldl (convStep users uid) state) := by
  intro pending
  induction pending with
  | nil =>
    intro processed state h
    simpa using h
  | cons m rest ih =>
    intro processed state h
    have hstep := convStep_inv users uid processed state m h
    have hrest := ih (processed ++ [m]) (convStep users uid state m) hstep
    simpa using hrest

theorem insertByTimeDesc_perm (c : Conversation) (l : List Conversation) :
    List.Perm (insertByTimeDesc c l) (c :: l) := by
  induction l with
  | nil => exact List.Perm.refl _
  | cons d rest ih =>
    unfold insertByTimeDesc
    split
    · exact (ih.cons d).trans (List.Perm.swap c d rest)
    · exact List.Perm.refl _

theorem sortByTimeDesc_perm (l : List Conversation) :
    List.Perm (sortByTimeDesc l) l := by
  unfold sortByTimeDesc
  induction l with
  | nil => exact List.Perm.refl _
  | cons c rest ih =>
    exact (insertByTimeDesc_perm c (rest.foldr insertByTimeDesc [])).trans
      (ih.cons c)

theorem countP_unreadHit_filter (msgs : List Message) (uid k : Int) :
    (msgs.filter (fun m => m.sender_id == uid || m.receiver_id == uid)).countP
      (unreadHit uid k) =
    unreadFromCount msgs uid k := by
  rw [List.countP_filter]
  unfold unreadFromCount
  refine List.countP_congr (fun m _ => ?_)
  unfold unreadHit otherId
  by_cases hr : m.receiver_id = uid
  · by_cases hs : m.sender_id = uid
    · by_cases hk : uid = k
      · simp [hr, hs, hk]
      · simp [hr, hs, hk]
    · simp [hr, hs]
  · simp [hr]

/-- C8: every counterparty record produced by the conversation aggregation
for an existing user reports an unread count equal to the number of stored
messages sent by that counterparty to the queried user whose read flag is
false. -/
theorem conversations_unread_count (db : Store) (uid : Int)
    (out : List Conversation)
    (h : get_conversations db uid = .ok out) :
    ∀ conv ∈ out,
      conv.unread_count = unreadFromCount db.messages uid conv.user_id := by
  intro conv hconv
  unfold get_conversations at h
  split at h
  · exact absurd h (by simp)
  next user huser =>
  simp only [Except.ok.injEq] at h
  subst h
  have hmem : conv ∈ ((db.messages.filter
      (fun m => m.sender_id == uid || m.receiver_id == uid)).foldl
      (convStep db.users uid) []).map (fun p => p.2) :=
    (sortByTimeDesc_perm _).mem_iff.mp hconv
  rcases List.mem_map.mp hmem with ⟨p, hp, hpc⟩
  have hbase : ConvInv db.users uid [] [] := by
    constructor
    · intro q hq
      cases hq
    · intro k hk hn m hm
      cases hm
  have hinv := convFold_inv db.users uid
    (db.messages.filter (fun m => m.sender_id == uid || m.receiver_id == uid))
    [] [] hbase
  obtain ⟨hone, _⟩ := hinv
  obtain ⟨hkey, hcount⟩ := hone p hp
  rw [← hpc, ← hkey]
  rw [hcount]
  simpa using countP_unreadHit_filter db.messages uid p.1

/-- Witness for the unread-count theorem: the single unread message from
user 2 to user 1 of the concrete store is counted once. -/
theorem conversations_unread_count_witness :
    demoConversationHead.unread_count =
      unreadFromCount demoStore.messages 1 demoConversationHead.user_id :=
  conversations_unread_count demoStore 1 demoConversations rfl
    demoConversationHead (by decide)
